import Mathlib

/-
Verification of the flat-file record store and analytics logic of the Tsono
landing-page server (`server.js`).

The server persists lead/contact/investor submissions as JSON array files and
one analytics JSON file.  The definitions below are a shallow embedding of the
relevant server functions:

  * `sanitize`, `isValidEmail`, `jsToLowerCase`, `jsIncludes`, `jsTrim` —
    the string helpers used by the HTTP handlers (regex replaces are
    translated to explicit character-list scans; `String.prototype.toLowerCase`
    is modelled by basic-latin `Char.toLower`).
  * `mkLead` / `mkContact` / `mkInvestor` / `postLead` — record construction
    and the `/api/leads` handler.
  * `writeData` / `appendRecord` — the lock-then-write helper and the
    read/push/write append cycle, with the environment's lock and disk
    outcomes passed in as booleans.
  * `phaseStep` / `sysStep` / `sysRun` — a cooperative-interleaving model of
    two concurrent appends: each `await` in the source is a suspension point,
    everything between two awaits is one atomic step.
  * `JsVal`, `getProp`, `setProp`, `truthyV`, `persistVal` — a small model of
    JavaScript values as used by the analytics code: arrays carry ad-hoc
    properties in memory, and `persistVal` models the
    `JSON.stringify`/`JSON.parse` round trip through the file, which discards
    the properties of an array.
  * `readData`, `initDataFile` — the read helper (parse failures coerced to
    an empty array) and the startup file initialisation.
  * `bumpPageView` / `trackReferrer` / `trackPageView`, `recordEvent` — the
    analytics mutations.
-/

namespace Tsono

/-- Whitespace as matched by the JavaScript `\s` class and `String.trim`,
restricted to the ASCII range (tab, LF, VT, FF, CR, space). -/
def isJsSpace (c : Char) : Bool :=
  c.toNat = 9 || c.toNat = 10 || c.toNat = 11 || c.toNat = 12 || c.toNat = 13 || c.toNat = 32

/-- One step of the global regex replace `/<[^>]*>/g` in `sanitize`: a `<`
that is followed (somewhere) by a `>` is removed together with everything up
to and including that first `>`; a `<` with no later `>` cannot be matched and
stays.  `fuel` bounds the recursion; `stripTags` supplies `l.length`, which is
enough because every step consumes at least one character. -/
def stripTagsGo : Nat → List Char → List Char
  | 0, l => l
  | _ + 1, [] => []
  | fuel + 1, c :: rest =>
    if c = '<' && rest.contains '>' then
      stripTagsGo fuel ((rest.dropWhile (fun d => d ≠ '>')).drop 1)
    else
      c :: stripTagsGo fuel rest

/-- The `.replace(/<[^>]*>/g, '')` pass of `sanitize`. -/
def stripTags (l : List Char) : List Char := stripTagsGo l.length l

/-- The `.replace(/[<>"'&]/g, ...)` pass of `sanitize`: the five special
characters (code points 60 `<`, 62 `>`, 34 double quote, 39 apostrophe,
38 `&`) become HTML entities. -/
def escapeChar (c : Char) : List Char :=
  if c.toNat = 60 then "&lt;".toList
  else if c.toNat = 62 then "&gt;".toList
  else if c.toNat = 34 then "&quot;".toList
  else if c.toNat = 39 then "&#x27;".toList
  else if c.toNat = 38 then "&amp;".toList
  else [c]

/-- Apply `escapeChar` across a character list. -/
def escapeAll : List Char → List Char
  | [] => []
  | c :: r => escapeChar c ++ escapeAll r

/-- `String.prototype.trim`: drop `\s` characters from both ends. -/
def jsTrim (l : List Char) : List Char :=
  ((l.dropWhile isJsSpace).reverse.dropWhile isJsSpace).reverse

/-- The server's `sanitize(str, maxLength)`: strip HTML tags, escape the
special characters, trim, then `slice(0, maxLength)`.  `if (!str) return ''`
is the empty-string case (absent body fields are modelled as `""`). -/
def sanitize (s : String) (maxLength : Nat) : String :=
  if s = "" then ""
  else String.mk ((jsTrim (escapeAll (stripTags s.toList))).take maxLength)

/-- Does `pat` occur as a prefix of `l`? -/
def isPrefixOfList : List Char → List Char → Bool
  | [], _ => true
  | _ :: _, [] => false
  | a :: as, b :: bs => a = b && isPrefixOfList as bs

/-- Does `pat` occur as a contiguous substring of `l`? -/
def containsSub (pat : List Char) : List Char → Bool
  | [] => pat.isEmpty
  | c :: r => isPrefixOfList pat (c :: r) || containsSub pat r

/-- `String.prototype.includes`. -/
def jsIncludes (s pat : String) : Bool := containsSub pat.toList s.toList

/-- `String.prototype.toLowerCase`, modelled at the basic-latin level by
`Char.toLower` on every character. -/
def jsToLowerCase (s : String) : String := String.mk (s.toList.map Char.toLower)

/-- The email regex `/^[^\s@]+@[^\s@]+\.[^\s@]+$/` from `isValidEmail`,
characterised by decomposition: the string splits at a unique `@` into a
nonempty local part and a domain, neither containing whitespace or `@`, and
the domain contains a `.` that is neither its first nor its last character
(so that both `[^\s@]+` groups around the dot are nonempty). -/
def splitAtChar (sep : Char) : List Char → List (List Char)
  | [] => [[]]
  | c :: r =>
    let rest := splitAtChar sep r
    if c = sep then [] :: rest
    else
      match rest with
      | [] => [[c]]
      | h :: t => (c :: h) :: t

/-- The server's `isValidEmail`. -/
def isValidEmail (email : String) : Bool :=
  match splitAtChar '@' email.toList with
  | [localPart, domain] =>
    !localPart.isEmpty
      && localPart.all (fun c => !isJsSpace c)
      && domain.all (fun c => !isJsSpace c)
      && ((domain.drop 1).dropLast.contains '.')
  | _ => false

/-- JavaScript `<` on strings: lexicographic comparison by code point. -/
def listStrLt : List Char → List Char → Bool
  | [], [] => false
  | [], _ :: _ => true
  | _ :: _, [] => false
  | a :: as, b :: bs =>
    if a.toNat = b.toNat then listStrLt as bs else decide (a.toNat < b.toNat)

/-- JavaScript string `<`, as used on `YYYY-MM-DD` date keys. -/
def jsStrLt (x y : String) : Bool := listStrLt x.toList y.toList

/-- A record produced by the `/api/leads` handler.  `type` is the
discriminator field of the stored JSON object. -/
structure LeadRec where
  id : Nat
  type : String
  name : String
  email : String
  interest : String
  timestamp : String
deriving DecidableEq

/-- A record produced by the `/api/contact` handler. -/
structure ContactRec where
  id : Nat
  type : String
  name : String
  email : String
  subject : String
  message : String
  status : String
  timestamp : String
deriving DecidableEq

/-- A record produced by the `/api/investors` handler. -/
structure InvestorRec where
  id : Nat
  type : String
  name : String
  email : String
  company : String
  inquiryType : String
  message : String
  status : String
  timestamp : String
deriving DecidableEq

/-- The lead object built by `/api/leads`: `id: Date.now()` (the wall-clock
millisecond `now`), sanitized fields, `sanitize(interest,50) || 'general'`,
`timestamp: new Date().toISOString()` (the string `nowISO`). -/
def mkLead (now : Nat) (nowISO name email interest : String) : LeadRec :=
  { id := now
    type := "lead"
    name := sanitize name 100
    email := jsToLowerCase (sanitize email 254)
    interest := if sanitize interest 50 = "" then "general" else sanitize interest 50
    timestamp := nowISO }

/-- The contact object built by `/api/contact`. -/
def mkContact (now : Nat) (nowISO name email subject message : String) : ContactRec :=
  { id := now
    type := "contact"
    name := sanitize name 100
    email := jsToLowerCase (sanitize email 254)
    subject := if sanitize subject 100 = "" then "General Inquiry" else sanitize subject 100
    message := sanitize message 5000
    status := "new"
    timestamp := nowISO }

/-- The investor object built by `/api/investors` (`type` in the request body
becomes the `inquiryType` field). -/
def mkInvestor (now : Nat) (nowISO name email company inquiryType message : String) : InvestorRec :=
  { id := now
    type := "investor"
    name := sanitize name 100
    email := jsToLowerCase (sanitize email 254)
    company := sanitize company 100
    inquiryType := if sanitize inquiryType 50 = "" then "general" else sanitize inquiryType 50
    message := sanitize message 5000
    status := "new"
    timestamp := nowISO }

/-- State of one collection file as seen by one sequential `append` call:
the parsed array on disk and whether this call's advisory lock is held. -/
structure WState (R : Type) where
  file : List R
  locked : Bool
deriving DecidableEq

/-- Failure modes of `writeData`: `proper-lockfile` retries exhausted, or the
disk write threw. -/
inductive WErr where
  | lockFailed
  | writeFailed
deriving DecidableEq

/-- The server's `writeData(file, data)`: acquire the lock (a bounded-retry
acquisition whose overall success is the environment input `lockOk`), write
the serialized array (success `writeOk`), and release the lock in `finally` —
so the lock is released whenever it was acquired, on success and on write
failure alike; if acquisition itself failed, `release` is undefined and
nothing is released.  A failed write is modelled as leaving the file content
unchanged. -/
def writeData {R : Type} (lockOk writeOk : Bool) (data : List R) (st : WState R) :
    Except WErr Unit × WState R :=
  if !lockOk then
    (Except.error WErr.lockFailed, st)
  else if !writeOk then
    (Except.error WErr.writeFailed, { st with locked := false })
  else
    (Except.ok (), { file := data, locked := false })

/-- One append as performed by the submission handlers:
`readData` the current array, `push` the new record, `writeData` the result. -/
def appendRecord {R : Type} (lockOk writeOk : Bool) (r : R) (st : WState R) :
    Except WErr Unit × WState R :=
  let current := st.file
  let pushed := current ++ [r]
  writeData lockOk writeOk pushed st

/-- HTTP outcome of a submission handler. -/
inductive Resp where
  | ok
  | badRequest
  | serverError
deriving DecidableEq

/-- The `/api/leads` handler: validate name and email, build the lead with
`mkLead`, append it; a store failure is caught and answered with a 500. -/
def postLead (lockOk writeOk : Bool) (now : Nat) (nowISO name email interest : String)
    (st : WState LeadRec) : Resp × WState LeadRec :=
  if name = "" || String.mk (jsTrim name.toList) = "" then
    (Resp.badRequest, st)
  else if !isValidEmail email then
    (Resp.badRequest, st)
  else
    match appendRecord lockOk writeOk (mkLead now nowISO name email interest) st with
    | (Except.ok _, st1) => (Resp.ok, st1)
    | (Except.error _, st1) => (Resp.serverError, st1)

/-- Progress of one append through its suspension points.  The handler body
runs synchronously from `readData` through `push` (phase `ready → snap`,
recording the locally pushed array), then suspends awaiting the lock
(`snap → locked`, only when the lock is free), writes synchronously
(`locked → written`, replacing the file with the snapshot), then suspends
awaiting `release()` (`written → done`). -/
inductive APhase (R : Type) where
  | ready
  | snap (localArr : List R)
  | locked (localArr : List R)
  | written
  | done
deriving DecidableEq

/-- Two concurrent appends against one collection file. -/
structure Sys (R : Type) where
  file : List R
  lockHeld : Bool
  t1 : APhase R
  t2 : APhase R
deriving DecidableEq

/-- One atomic step of a single append thread, given the record it is
appending and the shared file/lock state; `none` when the thread cannot step
(finished, or waiting for a lock that is held). -/
def phaseStep {R : Type} (r : R) (file : List R) (lockHeld : Bool) :
    APhase R → Option (APhase R × List R × Bool)
  | APhase.ready => some (APhase.snap (file ++ [r]), file, lockHeld)
  | APhase.snap l => if lockHeld then none else some (APhase.locked l, file, true)
  | APhase.locked l => some (APhase.written, l, lockHeld)
  | APhase.written => some (APhase.done, file, false)
  | APhase.done => none

/-- Scheduler step: let thread 1 (`who = true`) or thread 2 step if it can. -/
def sysStep {R : Type} (r1 r2 : R) (s : Sys R) (who : Bool) : Sys R :=
  if who then
    match phaseStep r1 s.file s.lockHeld s.t1 with
    | some (p, f, lk) => { s with t1 := p, file := f, lockHeld := lk }
    | none => s
  else
    match phaseStep r2 s.file s.lockHeld s.t2 with
    | some (p, f, lk) => { s with t2 := p, file := f, lockHeld := lk }
    | none => s

/-- Run a schedule (a list of thread choices) from a state. -/
def sysRun {R : Type} (r1 r2 : R) (sched : List Bool) (s : Sys R) : Sys R :=
  sched.foldl (sysStep r1 r2) s

/-- Is a thread inside the lock-protected section (between acquisition and
release)? -/
def holding {R : Type} : APhase R → Bool
  | APhase.locked _ => true
  | APhase.written => true
  | _ => false

/-- The lock is held exactly when some thread is in its lock-protected
section, and never by both threads at once. -/
def mutexInv {R : Type} (s : Sys R) : Bool :=
  (s.lockHeld == (holding s.t1 || holding s.t2)) && !(holding s.t1 && holding s.t2)

/-- A JavaScript value as manipulated by the analytics code.  An array keeps
both its indexed elements and any ad-hoc named properties assigned to it (the
server assigns `pageViews`, `referrers`, `events` onto whatever `readData`
returned, which for a fresh `'[]'` file is an array). -/
inductive JsVal where
  | vnull
  | vbool (b : Bool)
  | vnum (n : Int)
  | vstr (s : String)
  | varr (elems : List JsVal) (props : List (String × JsVal))
  | vobj (props : List (String × JsVal))

/-- First binding of a key in a property list. -/
def lookupProp : List (String × JsVal) → String → Option JsVal
  | [], _ => none
  | (k1, v) :: r, k => if k1 = k then some v else lookupProp r k

/-- Property assignment on a property list: overwrite in place, or append a
new key at the end (JavaScript string-keyed property insertion order). -/
def upsertProp : List (String × JsVal) → String → JsVal → List (String × JsVal)
  | [], k, v => [(k, v)]
  | (k1, v1) :: r, k, v =>
    if k1 = k then (k, v) :: r else (k1, v1) :: upsertProp r k v

/-- Property read `a[k]`; `none` is JavaScript `undefined` (reads on
primitives yield `undefined`). -/
def getProp : JsVal → String → Option JsVal
  | JsVal.varr _ ps, k => lookupProp ps k
  | JsVal.vobj ps, k => lookupProp ps k
  | _, _ => none

/-- Property write `a[k] = v`; a write on a primitive is a silent no-op
(the server file is not in strict mode). -/
def setProp : JsVal → String → JsVal → JsVal
  | JsVal.varr es ps, k, v => JsVal.varr es (upsertProp ps k v)
  | JsVal.vobj ps, k, v => JsVal.vobj (upsertProp ps k v)
  | a, _, _ => a

/-- JavaScript truthiness of a value. -/
def truthyV : JsVal → Bool
  | JsVal.vnull => false
  | JsVal.vbool b => b
  | JsVal.vnum n => decide (n ≠ 0)
  | JsVal.vstr s => decide (s ≠ "")
  | JsVal.varr _ _ => true
  | JsVal.vobj _ => true

/-- Truthiness of a possibly-`undefined` read. -/
def truthy : Option JsVal → Bool
  | none => false
  | some v => truthyV v

/-- Nested read `a[k1][k2]` (guarded by truthiness checks in the source). -/
def getProp2 (a : JsVal) (k1 k2 : String) : Option JsVal :=
  match getProp a k1 with
  | some v => getProp v k2
  | none => none

/-- Nested read `a[k1][k2][k3]`. -/
def getProp3 (a : JsVal) (k1 k2 k3 : String) : Option JsVal :=
  match getProp2 a k1 k2 with
  | some v => getProp v k3
  | none => none

/-- Nested write `a[k1][k2] = v`.  The source only performs it after ensuring
`a[k1]` exists, so the `none` fallback (return `a` unchanged) is unreachable
on the guarded paths. -/
def setProp2 (a : JsVal) (k1 k2 : String) (v : JsVal) : JsVal :=
  match getProp a k1 with
  | some o => setProp a k1 (setProp o k2 v)
  | none => a

/-- Nested write `a[k1][k2][k3] = v`, guarded likewise. -/
def setProp3 (a : JsVal) (k1 k2 k3 : String) (v : JsVal) : JsVal :=
  match getProp a k1 with
  | some o => setProp a k1 (setProp2 o k2 k3 v)
  | none => a

/-- `a[k1][k2][k3]++` on the counter the source just ensured is a number. -/
def incProp3 (a : JsVal) (k1 k2 k3 : String) : JsVal :=
  match getProp3 a k1 k2 k3 with
  | some (JsVal.vnum n) => setProp3 a k1 k2 k3 (JsVal.vnum (n + 1))
  | _ => a

/-- `a[k].unshift(e)`: in-place prepend on the array stored at `k`. -/
def unshiftProp (a : JsVal) (k : String) (e : JsVal) : JsVal :=
  match getProp a k with
  | some (JsVal.varr es ps) => setProp a k (JsVal.varr (e :: es) ps)
  | _ => a

/-- `a[k] = a[k].slice(0, n)`: `slice` builds a fresh array (without the old
array's ad-hoc properties) holding the first `n` elements. -/
def sliceProp (a : JsVal) (k : String) (n : Nat) : JsVal :=
  match getProp a k with
  | some (JsVal.varr es _) => setProp a k (JsVal.varr (es.take n) [])
  | _ => a

/-- `a[k1][k2].push(e)`: in-place append on a nested array. -/
def pushProp2 (a : JsVal) (k1 k2 : String) (e : JsVal) : JsVal :=
  match getProp2 a k1 k2 with
  | some (JsVal.varr es ps) => setProp2 a k1 k2 (JsVal.varr (es ++ [e]) ps)
  | _ => a

mutual
/-- The `JSON.stringify` / `JSON.parse` round trip a value takes through
`writeData` and the next `readData`: the named properties of an array are not
serialized and are lost; objects keep their keys in order. -/
def persistVal : JsVal → JsVal
  | JsVal.vnull => JsVal.vnull
  | JsVal.vbool b => JsVal.vbool b
  | JsVal.vnum n => JsVal.vnum n
  | JsVal.vstr s => JsVal.vstr s
  | JsVal.varr es _ => JsVal.varr (persistValList es) []
  | JsVal.vobj ps => JsVal.vobj (persistValPairs ps)
/-- `persistVal` on the elements of an array. -/
def persistValList : List JsVal → List JsVal
  | [] => []
  | e :: es => persistVal e :: persistValList es
/-- `persistVal` on the fields of an object. -/
def persistValPairs : List (String × JsVal) → List (String × JsVal)
  | [] => []
  | (k, v) :: ps => (k, persistVal v) :: persistValPairs ps
end

/-- On-disk state of one data file. -/
inductive FileContent where
  | missing
  | unreadable
  | invalid (raw : String)
  | valid (v : JsVal)

/-- The server's `readData`: `readFileSync` + `JSON.parse` with every failure
(missing file, unreadable file, parse error) caught and coerced to the empty
array `[]`. -/
def readData : FileContent → JsVal
  | FileContent.valid v => v
  | _ => JsVal.varr [] []

/-- `readData` together with the file state it leaves behind: reading never
mutates the file. -/
def readDataOp (fc : FileContent) : JsVal × FileContent := (readData fc, fc)

/-- Startup initialisation of each entry of `DATA_FILES` (leads, contacts,
investors and analytics alike): if the file does not exist, write the literal
`'[]'` — the empty JSON array. -/
def initDataFile : FileContent → FileContent
  | FileContent.missing => FileContent.valid (JsVal.varr [] [])
  | fc => fc

/-- A guarded initialisation `if (!a[k]) a[k] = v` from the source. -/
def ensureProp (a : JsVal) (k : String) (v : JsVal) : JsVal :=
  if truthy (getProp a k) then a else setProp a k v

/-- A guarded nested initialisation `if (!a[k1][k2]) a[k1][k2] = v`. -/
def ensureProp2 (a : JsVal) (k1 k2 : String) (v : JsVal) : JsVal :=
  if truthy (getProp2 a k1 k2) then a else setProp2 a k1 k2 v

/-- A guarded nested initialisation `if (!a[k1][k2][k3]) a[k1][k2][k3] = v`. -/
def ensureProp3 (a : JsVal) (k1 k2 k3 : String) (v : JsVal) : JsVal :=
  if truthy (getProp3 a k1 k2 k3) then a else setProp3 a k1 k2 k3 v

/-- The page-view half of `trackPageView`: ensure the `pageViews` structure
exists and increment `pageViews[dateKey][page]`. -/
def bumpPageView (today page : String) (a : JsVal) : JsVal :=
  incProp3
    (ensureProp3
      (ensureProp2
        (ensureProp a "pageViews" (JsVal.vobj []))
        "pageViews" today (JsVal.vobj []))
      "pageViews" today page (JsVal.vnum 0))
    "pageViews" today page

/-- The body of the referrer branch `if (referer && !referer.includes(...))`:
when the (truthy) referer is external, unshift a sanitized entry onto
`referrers` and cap the list with `slice(0, 100)`. -/
def applyReferrer (page ref nowISO : String) (a1 : JsVal) : JsVal :=
  if decide (ref ≠ "") && !jsIncludes ref "tsono.app" then
    sliceProp
      (unshiftProp a1 "referrers"
        (JsVal.vobj
          [("url", JsVal.vstr (sanitize ref 500)),
           ("page", JsVal.vstr (sanitize page 200)),
           ("timestamp", JsVal.vstr nowISO)]))
      "referrers" 100
  else a1

/-- The referrer half of `trackPageView`: ensure `referrers` exists; when the
referer is present apply the gated unshift-and-cap update. -/
def trackReferrer (page : String) (referer : Option String) (nowISO : String)
    (a : JsVal) : JsVal :=
  match referer with
  | none => ensureProp a "referrers" (JsVal.varr [] [])
  | some ref => applyReferrer page ref nowISO (ensureProp a "referrers" (JsVal.varr [] []))

/-- The server's `trackPageView` body (between its `readData` and
`writeData`): bump the page-view counter, then update the referrer list.
`today` is `getDateKey()` and `nowISO` the entry timestamp.  The
`userAgent` argument of the source is unused by its body. -/
def trackPageView (page : String) (referer : Option String) (today nowISO : String)
    (a : JsVal) : JsVal :=
  trackReferrer page referer nowISO (bumpPageView today page a)

/-- The event record pushed by `/api/analytics/event`; `data: data || {}`. -/
def newEventObj (eventName : String) (eventData : Option JsVal) (nowISO : String) : JsVal :=
  JsVal.vobj
    [("event", JsVal.vstr eventName),
     ("data", match eventData with
              | some d => if truthyV d then d else JsVal.vobj []
              | none => JsVal.vobj []),
     ("timestamp", JsVal.vstr nowISO)]

/-- The pruning loop of `/api/analytics/event`: delete every key of
`analytics.events` that compares `<` the cutoff date key (7 days ago). -/
def pruneEvents (a : JsVal) (cutoffKey : String) : JsVal :=
  match getProp a "events" with
  | some (JsVal.vobj ps) =>
    setProp a "events" (JsVal.vobj (ps.filter (fun p => !jsStrLt p.1 cutoffKey)))
  | _ => a

/-- The `/api/analytics/event` handler body (between its `readData` and
`writeData`): ensure `events` and `events[dateKey]` exist, push the new event
record, then prune keys older than the cutoff. -/
def recordEvent (eventName : String) (eventData : Option JsVal)
    (today cutoffKey nowISO : String) (a : JsVal) : JsVal :=
  pruneEvents
    (pushProp2
      (ensureProp2
        (ensureProp a "events" (JsVal.vobj []))
        "events" today (JsVal.varr [] []))
      "events" today (newEventObj eventName eventData nowISO))
    cutoffKey

/-- Did a store call fail? -/
def isErr : Except WErr Unit → Bool
  | Except.error _ => true
  | Except.ok _ => false

/-- Root-array view of a value: the indexed elements if the value is an
array.  `JSON.stringify` serializes exactly these for an array root. -/
def rootElems : JsVal → Option (List JsVal)
  | JsVal.varr es _ => some es
  | _ => none

/-- Demo lead "A" for the interleaving run. -/
def leadA : LeadRec := mkLead 1760000000000 "2025-10-09T08:53:20.000Z" "A" "a@x.com" "racing"

/-- Demo lead "B" for the interleaving run. -/
def leadB : LeadRec := mkLead 1760000000001 "2025-10-09T08:53:20.001Z" "B" "b@x.com" "touring"

/-- Schedule: both threads read and push, then thread 1 locks/writes/releases,
then thread 2 locks/writes/releases. -/
def demoSched : List Bool := [true, false, true, true, true, false, false, false]

/-- Two leads created within the same wall-clock millisecond. -/
def leadSameMs1 : LeadRec := mkLead 1760000000000 "2025-10-09T08:53:20.000Z" "A" "a@x.com" "racing"

/-- A different submission in that same millisecond. -/
def leadSameMs2 : LeadRec := mkLead 1760000000000 "2025-10-09T08:53:20.000Z" "B" "b@x.com" "touring"

/-- One page view as handled by the analytics middleware and persisted: read the
analytics file, run `trackPageView`, serialize the result back. -/
def pvCycle (fc : FileContent) (page : String) (referer : Option String)
    (today nowISO : String) : FileContent :=
  FileContent.valid (persistVal (trackPageView page referer today nowISO (readData fc)))

/-- The i-th demo referrer: `https://aa…a.com` with `i + 1` letters `a`. -/
def demoRef (i : Nat) : String :=
  String.mk ("https://".toList ++ List.replicate (i + 1) 'a' ++ ".com".toList)

/-- 150 page views of `/index.html`, each carrying a distinct external
referrer. -/
def demoViews : List (String × Option String) :=
  (List.range 150).map (fun i => ("/index.html", some (demoRef i)))

/-- Persist a sequence of page views, starting from a file state. -/
def foldViews (vs : List (String × Option String)) (fc : FileContent) : FileContent :=
  vs.foldl (fun acc v => pvCycle acc v.1 v.2 "2026-10-11" "2026-10-11T12:00:00.000Z") fc

/-- The referrer gate of `trackPageView`: truthy and not containing
`tsono.app`. -/
def isExternalRef : Option String → Bool
  | none => false
  | some s => decide (s ≠ "") && !jsIncludes s "tsono.app"

/-- An event record dated 2020-01-01 (far older than any 7-day cutoff). -/
def staleEvent : JsVal :=
  JsVal.vobj
    [("event", JsVal.vstr "click"),
     ("data", JsVal.vobj []),
     ("timestamp", JsVal.vstr "2020-01-01T00:00:00.000Z")]

/-- An analytics document (object root) still holding that stale event. -/
def staleDoc : JsVal :=
  JsVal.vobj [("events", JsVal.vobj [("2020-01-01", JsVal.varr [staleEvent] [])])]

/-- Is the parsed root of a document a JSON object? -/
def isObjRoot : JsVal → Bool
  | JsVal.vobj _ => true
  | _ => false

/-- Does a string contain no ASCII upper-case letter? -/
def noUpperStr (s : String) : Bool := s.toList.all (fun c => !c.isUpper)

/-- UInt32 order agrees with the order of the underlying naturals. -/
theorem uint32_le_iff_toNat_le {x y : UInt32} : x ≤ y ↔ x.toNat ≤ y.toNat := by
  simp [UInt32.le_def, BitVec.le_def, UInt32.toNat]

/-- `Char.ofNat` at a valid code point round-trips through `toNat`. -/
theorem charToNat_ofNat_valid (n : Nat) (h : n.isValidChar) : (Char.ofNat n).toNat = n := by
  rw [Char.ofNat, dif_pos h]
  rfl

/-- Lower-casing a character never yields an ASCII upper-case letter. -/
theorem toLower_not_upper (c : Char) : (Char.toLower c).isUpper = false := by
  have hd : Char.toLower c =
      if c.toNat ≥ 65 ∧ c.toNat ≤ 90 then Char.ofNat (c.toNat + 32) else c := rfl
  rw [hd]
  by_cases h : c.toNat ≥ 65 ∧ c.toNat ≤ 90
  · rw [if_pos h]
    have hv : (c.toNat + 32).isValidChar := by
      left
      simp only [Nat.lt_iff_add_one_le]
      omega
    have ht : (Char.ofNat (c.toNat + 32)).toNat = c.toNat + 32 := charToNat_ofNat_valid _ hv
    simp only [Char.isUpper, Bool.and_eq_false_iff]
    right
    simp only [decide_eq_false_iff_not]
    intro hle
    have h1 := uint32_le_iff_toNat_le.mp hle
    have h90 : (90 : UInt32).toNat = 90 := rfl
    rw [h90] at h1
    have h2 : (Char.ofNat (c.toNat + 32)).toNat ≤ 90 := h1
    omega
  · rw [if_neg h]
    simp only [Char.isUpper, Bool.and_eq_false_iff]
    rcases Nat.lt_or_ge c.toNat 65 with h1 | h1
    · left
      simp only [decide_eq_false_iff_not]
      intro hle
      have h2 := uint32_le_iff_toNat_le.mp hle
      have h65 : (65 : UInt32).toNat = 65 := rfl
      rw [h65] at h2
      have hcv : c.val.toNat = c.toNat := rfl
      omega
    · right
      simp only [decide_eq_false_iff_not]
      intro hle
      have h2 := uint32_le_iff_toNat_le.mp hle
      have h90 : (90 : UInt32).toNat = 90 := rfl
      rw [h90] at h2
      have hcv : c.val.toNat = c.toNat := rfl
      omega

/-- The output of `jsToLowerCase` contains no ASCII upper-case letter. -/
theorem jsToLowerCase_no_upper (s : String) : noUpperStr (jsToLowerCase s) = true := by
  simp only [noUpperStr, jsToLowerCase, List.all_eq_true]
  intro c hc
  have hc2 : c ∈ s.toList.map Char.toLower := hc
  rcases List.mem_map.mp hc2 with ⟨d, _, hd⟩
  subst hd
  simp [toLower_not_upper]

/-- C10.  Every record built by the three submission handlers stores
`sanitize(email, 254).toLowerCase()` in its email field, and that field never
contains an upper-case (ASCII) letter. -/
theorem stored_emails_lowercase (now : Nat)
    (nowISO name email interest subject message company inquiryType : String) :
    ((mkLead now nowISO name email interest).email = jsToLowerCase (sanitize email 254)
      ∧ noUpperStr (mkLead now nowISO name email interest).email = true)
    ∧ ((mkContact now nowISO name email subject message).email
          = jsToLowerCase (sanitize email 254)
      ∧ noUpperStr (mkContact now nowISO name email subject message).email = true)
    ∧ ((mkInvestor now nowISO name email company inquiryType message).email
          = jsToLowerCase (sanitize email 254)
      ∧ noUpperStr (mkInvestor now nowISO name email company inquiryType message).email = true) :=
  ⟨⟨rfl, jsToLowerCase_no_upper _⟩, ⟨rfl, jsToLowerCase_no_upper _⟩,
    ⟨rfl, jsToLowerCase_no_upper _⟩⟩

/-- C8.  Submitting the valid lead (Jo, jo@x.com, racing) to an empty leads
collection succeeds and yields exactly one stored record with type `lead`,
interest `racing`, id equal to the creation-time clock value and timestamp
equal to the creation-time ISO string. -/
theorem postLead_scenario_jo (now : Nat) (nowISO : String) :
    postLead true true now nowISO "Jo" "jo@x.com" "racing" ⟨[], false⟩ =
      (Resp.ok, ⟨[⟨now, "lead", "Jo", "jo@x.com", "racing", nowISO⟩], false⟩) := by
  rfl

/-- C9.  `readData` is a pure function of the file contents: reading twice
with no intervening write returns equal values, and reading leaves the file
unchanged. -/
theorem readData_idempotent_no_mutation (fc : FileContent) :
    (readDataOp fc).1 = (readDataOp (readDataOp fc).2).1 ∧ (readDataOp fc).2 = fc :=
  ⟨rfl, rfl⟩

/-- C6.  On a missing, unreadable or syntactically invalid file, `readData`
returns the empty array (the caught-exception fallback) and has no effect on
the file. -/
theorem readData_failures_yield_empty (fc : FileContent)
    (h : fc = FileContent.missing ∨ fc = FileContent.unreadable
          ∨ ∃ s, fc = FileContent.invalid s) :
    readData fc = JsVal.varr [] [] ∧ (readDataOp fc).2 = fc := by
  rcases h with h | h | ⟨s, h⟩ <;> subst h <;> exact ⟨rfl, rfl⟩

/-- Witness for C6 at a never-initialized (missing) collection file. -/
theorem readData_failures_yield_empty_witness :
    readData FileContent.missing = JsVal.varr [] []
    ∧ (readDataOp FileContent.missing).2 = FileContent.missing :=
  readData_failures_yield_empty FileContent.missing (Or.inl rfl)

/-- C7.  At startup an absent data file — the analytics file included — is
initialized to the JSON array `[]`, so the analytics document starts as an
array, not as the empty object the specification requires. -/
theorem analytics_file_initialized_as_array :
    initDataFile FileContent.missing = FileContent.valid (JsVal.varr [] [])
    ∧ isObjRoot (readData (initDataFile FileContent.missing)) = false :=
  ⟨rfl, rfl⟩

/-- C4 counterexample.  Two distinct submissions created in the same
wall-clock millisecond receive the same id. -/
theorem same_millisecond_ids_collide :
    leadSameMs1.id = leadSameMs2.id
    ∧ leadSameMs1.name = "A" ∧ leadSameMs2.name = "B" := by
  refine ⟨rfl, ?_, ?_⟩ <;> rfl

/-- C4 amended.  Ids equal the creation-time millisecond clock value, so
records whose creation milliseconds differ have distinct ids (for leads and
investors alike). -/
theorem distinct_millis_distinct_ids (t1 t2 : Nat)
    (iso1 iso2 n1 n2 e1 e2 i1 i2 co1 co2 ty1 ty2 m1 m2 : String)
    (h : t1 ≠ t2) :
    (mkLead t1 iso1 n1 e1 i1).id ≠ (mkLead t2 iso2 n2 e2 i2).id
    ∧ (mkInvestor t1 iso1 n1 e1 co1 ty1 m1).id ≠ (mkInvestor t2 iso2 n2 e2 co2 ty2 m2).id :=
  ⟨h, h⟩

/-- Witness for the amended C4 at two distinct milliseconds. -/
theorem distinct_millis_distinct_ids_witness :
    (mkLead 1760000000000 "a" "A" "a@x.com" "r").id
        ≠ (mkLead 1760000000001 "b" "B" "b@x.com" "t").id
    ∧ (mkInvestor 1760000000000 "a" "A" "a@x.com" "C" "vc" "m").id
        ≠ (mkInvestor 1760000000001 "b" "B" "b@x.com" "D" "vc" "m").id :=
  distinct_millis_distinct_ids 1760000000000 1760000000001
    "a" "b" "A" "B" "a@x.com" "b@x.com" "r" "t" "C" "D" "vc" "vc" "m" "m" (by decide)

/-- C5.  When the lock cannot be acquired or the disk write fails, the append
reports an error, the file is unchanged, and the lock is free afterwards; on
the success path the lock is likewise released. -/
theorem append_failure_leaves_file_and_lock_clean (lockOk writeOk : Bool)
    (r : LeadRec) (st : WState LeadRec)
    (hfree : st.locked = false) (hfail : (lockOk && writeOk) = false) :
    isErr (appendRecord lockOk writeOk r st).1 = true
    ∧ (appendRecord lockOk writeOk r st).2.file = st.file
    ∧ (appendRecord lockOk writeOk r st).2.locked = false
    ∧ (appendRecord true true r st).2.locked = false := by
  cases lockOk <;> cases writeOk <;>
    simp_all [appendRecord, writeData, isErr]

/-- Witness for C5: a lock-acquisition failure on an empty collection. -/
theorem append_failure_leaves_file_and_lock_clean_witness :
    isErr (appendRecord false true leadA ⟨[], false⟩).1 = true
    ∧ (appendRecord false true leadA ⟨[], false⟩).2.file = ([] : List LeadRec)
    ∧ (appendRecord false true leadA ⟨[], false⟩).2.locked = false
    ∧ (appendRecord true true leadA ⟨[], false⟩).2.locked = false :=
  append_failure_leaves_file_and_lock_clean false true leadA ⟨[], false⟩ rfl rfl

/-- One scheduler step preserves the lock invariant: the lock is held exactly
when one thread is between acquisition and release, and never both. -/
theorem mutex_step {R : Type} (r1 r2 : R) (s : Sys R) (who : Bool)
    (h : mutexInv s = true) : mutexInv (sysStep r1 r2 s who) = true := by
  obtain ⟨f, lk, p1, p2⟩ := s
  cases who <;> cases p1 <;> cases p2 <;> cases lk <;>
    simp_all [sysStep, phaseStep, mutexInv, holding]

/-- The lock invariant holds along every schedule. -/
theorem mutex_run {R : Type} (r1 r2 : R) (sched : List Bool) (s : Sys R)
    (h : mutexInv s = true) : mutexInv (sysRun r1 r2 sched s) = true := by
  induction sched generalizing s with
  | nil => exact h
  | cons w rest ih => exact ih _ (mutex_step r1 r2 s w h)

/-- C1 counterexample.  Both appends read the file and push before either
acquires the lock; under the schedule `demoSched` both appends run to
completion (`done`/`done`), yet the final file is `[leadB]` alone — the write
of lead "A" is lost, so the read-modify-write cycles interleaved. -/
theorem append_interleaving_loses_record :
    sysRun leadA leadB demoSched ⟨[], false, APhase.ready, APhase.ready⟩ =
      ⟨[leadB], false, APhase.done, APhase.done⟩
    ∧ leadA.name = "A" ∧ leadB.name = "B" :=
  ⟨by decide, rfl, rfl⟩

/-- C1 amended.  Only the serialization step runs under the exclusive lock:
along every schedule the lock is held by at most one append at a time (so
disk writes themselves never overlap), but the read and push happen before
lock acquisition, and there is an interleaving of two appends in which both
complete while the final file holds only one of the two records. -/
theorem write_under_lock_but_read_outside :
    (∀ (r1 r2 : LeadRec) (sched : List Bool) (l0 : List LeadRec),
        mutexInv (sysRun r1 r2 sched ⟨l0, false, APhase.ready, APhase.ready⟩) = true)
    ∧ (sysRun leadA leadB demoSched ⟨[], false, APhase.ready, APhase.ready⟩).t1 = APhase.done
    ∧ (sysRun leadA leadB demoSched ⟨[], false, APhase.ready, APhase.ready⟩).t2 = APhase.done
    ∧ (sysRun leadA leadB demoSched ⟨[], false, APhase.ready, APhase.ready⟩).file.length = 1 := by
  refine ⟨?_, by decide, by decide, by decide⟩
  intro r1 r2 sched l0
  exact mutex_run r1 r2 sched _ rfl

/-- Looking up the key just assigned returns the assigned value. -/
theorem lookupProp_upsert_self (ps : List (String × JsVal)) (k : String) (v : JsVal) :
    lookupProp (upsertProp ps k v) k = some v := by
  induction ps with
  | nil => simp [upsertProp, lookupProp]
  | cons p r ih =>
    obtain ⟨k1, v1⟩ := p
    by_cases h : k1 = k <;> simp [upsertProp, lookupProp, h, ih]

/-- Assigning one key leaves lookups of other keys unchanged. -/
theorem lookupProp_upsert_ne (ps : List (String × JsVal)) (k1 k2 : String) (v : JsVal)
    (h : k1 ≠ k2) : lookupProp (upsertProp ps k1 v) k2 = lookupProp ps k2 := by
  induction ps with
  | nil => simp [upsertProp, lookupProp, h]
  | cons p r ih =>
    obtain ⟨k0, v0⟩ := p
    by_cases h0 : k0 = k1
    · subst h0
      simp [upsertProp, lookupProp, h]
    · simp [upsertProp, lookupProp, h0, ih]

/-- A successful lookup exhibits a member of the property list. -/
theorem lookupProp_mem (ps : List (String × JsVal)) (k : String) (v : JsVal)
    (h : lookupProp ps k = some v) : (k, v) ∈ ps := by
  induction ps with
  | nil => simp [lookupProp] at h
  | cons p r ih =>
    obtain ⟨k1, v1⟩ := p
    by_cases hk : k1 = k
    · subst hk
      simp [lookupProp] at h
      subst h
      exact List.mem_cons_self _ _
    · simp only [lookupProp, if_neg hk] at h
      exact List.mem_cons_of_mem _ (ih h)

/-- After the pruning filter, a key older than the cutoff is gone. -/
theorem lookupProp_filter_lt_none (ps : List (String × JsVal)) (k cutoff : String)
    (h : jsStrLt k cutoff = true) :
    lookupProp (ps.filter (fun p => !jsStrLt p.1 cutoff)) k = none := by
  induction ps with
  | nil => rfl
  | cons p r ih =>
    obtain ⟨k1, v1⟩ := p
    by_cases hf : jsStrLt k1 cutoff = true
    · simp only [List.filter_cons, hf, Bool.not_true, if_neg (by decide : ¬ (false = true))]
      exact ih
    · have hf2 : jsStrLt k1 cutoff = false := by
        cases hx : jsStrLt k1 cutoff
        · rfl
        · exact absurd hx hf
      have hk1 : k1 ≠ k := by
        intro he
        subst he
        rw [hf2] at h
        exact absurd h (by decide)
      simp only [List.filter_cons, hf2, Bool.not_false, if_pos rfl, lookupProp, if_neg hk1]
      exact ih

/-- The pruning filter does not disturb lookups of keys at or after the
cutoff. -/
theorem lookupProp_filter_keep (ps : List (String × JsVal)) (k cutoff : String)
    (h : jsStrLt k cutoff = false) :
    lookupProp (ps.filter (fun p => !jsStrLt p.1 cutoff)) k = lookupProp ps k := by
  induction ps with
  | nil => rfl
  | cons p r ih =>
    obtain ⟨k1, v1⟩ := p
    by_cases hk : k1 = k
    · subst hk
      simp [List.filter_cons, h, lookupProp]
    · by_cases hf : jsStrLt k1 cutoff = true
      · simp only [List.filter_cons, hf, Bool.not_true, if_neg (by decide : ¬ (false = true)),
          lookupProp, if_neg hk]
        exact ih
      · have hf2 : jsStrLt k1 cutoff = false := by
          cases hx : jsStrLt k1 cutoff
          · rfl
          · exact absurd hx hf
        simp only [List.filter_cons, hf2, Bool.not_false, if_pos rfl, lookupProp, if_neg hk]
        exact ih

/-- Writing one property does not change reads of a different property. -/
theorem getProp_setProp_ne (a : JsVal) (k1 k2 : String) (v : JsVal) (h : k1 ≠ k2) :
    getProp (setProp a k1 v) k2 = getProp a k2 := by
  cases a <;> simp [getProp, setProp, lookupProp_upsert_ne _ _ _ _ h]

/-- Nested writes under key `k1` do not change reads of a different key. -/
theorem getProp_setProp2_ne (a : JsVal) (k1 k2 k' : String) (v : JsVal) (h : k1 ≠ k') :
    getProp (setProp2 a k1 k2 v) k' = getProp a k' := by
  unfold setProp2
  cases hg : getProp a k1 with
  | none => rfl
  | some o => exact getProp_setProp_ne _ _ _ _ h

/-- Doubly nested writes under key `k1` do not change reads of another key. -/
theorem getProp_setProp3_ne (a : JsVal) (k1 k2 k3 k' : String) (v : JsVal) (h : k1 ≠ k') :
    getProp (setProp3 a k1 k2 k3 v) k' = getProp a k' := by
  unfold setProp3
  cases hg : getProp a k1 with
  | none => rfl
  | some o => exact getProp_setProp_ne _ _ _ _ h

/-- The counter increment does not change reads of another key. -/
theorem getProp_incProp3_ne (a : JsVal) (k1 k2 k3 k' : String) (h : k1 ≠ k') :
    getProp (incProp3 a k1 k2 k3) k' = getProp a k' := by
  unfold incProp3
  cases hg : getProp3 a k1 k2 k3 with
  | none => rfl
  | some o => cases o <;> first | rfl | exact getProp_setProp3_ne _ _ _ _ _ _ h

/-- `unshift` on the array at `k` does not change reads of another key. -/
theorem getProp_unshiftProp_ne (a : JsVal) (k k' : String) (e : JsVal) (h : k ≠ k') :
    getProp (unshiftProp a k e) k' = getProp a k' := by
  unfold unshiftProp
  cases hg : getProp a k with
  | none => rfl
  | some o => cases o <;> first | rfl | exact getProp_setProp_ne _ _ _ _ h

/-- `slice` reassignment at `k` does not change reads of another key. -/
theorem getProp_sliceProp_ne (a : JsVal) (k k' : String) (n : Nat) (h : k ≠ k') :
    getProp (sliceProp a k n) k' = getProp a k' := by
  unfold sliceProp
  cases hg : getProp a k with
  | none => rfl
  | some o => cases o <;> first | rfl | exact getProp_setProp_ne _ _ _ _ h

/-- Guarded initialisation of `k` does not change reads of another key. -/
theorem getProp_ensureProp_ne (a : JsVal) (k k' : String) (v : JsVal) (h : k ≠ k') :
    getProp (ensureProp a k v) k' = getProp a k' := by
  unfold ensureProp
  split
  · rfl
  · exact getProp_setProp_ne _ _ _ _ h

/-- Guarded nested initialisation under `k1` preserves other keys. -/
theorem getProp_ensureProp2_ne (a : JsVal) (k1 k2 k' : String) (v : JsVal) (h : k1 ≠ k') :
    getProp (ensureProp2 a k1 k2 v) k' = getProp a k' := by
  unfold ensureProp2
  split
  · rfl
  · exact getProp_setProp2_ne _ _ _ _ _ h

/-- Guarded doubly nested initialisation under `k1` preserves other keys. -/
theorem getProp_ensureProp3_ne (a : JsVal) (k1 k2 k3 k' : String) (v : JsVal) (h : k1 ≠ k') :
    getProp (ensureProp3 a k1 k2 k3 v) k' = getProp a k' := by
  unfold ensureProp3
  split
  · rfl
  · exact getProp_setProp3_ne _ _ _ _ _ _ h

/-- The referrer update only touches `referrers`. -/
theorem getProp_applyReferrer_ne (page ref nowISO : String) (a : JsVal) (k' : String)
    (h : ("referrers" : String) ≠ k') :
    getProp (applyReferrer page ref nowISO a) k' = getProp a k' := by
  unfold applyReferrer
  split
  · rw [getProp_sliceProp_ne _ _ _ _ h, getProp_unshiftProp_ne _ _ _ _ h]
  · rfl

/-- The page-view bump only touches `pageViews`; in particular it preserves
the `events` field. -/
theorem getProp_events_bumpPageView (today page : String) (a : JsVal) :
    getProp (bumpPageView today page a) "events" = getProp a "events" := by
  have hne : ("pageViews" : String) ≠ "events" := by decide
  unfold bumpPageView
  rw [getProp_incProp3_ne _ _ _ _ _ hne, getProp_ensureProp3_ne _ _ _ _ _ _ hne,
      getProp_ensureProp2_ne _ _ _ _ _ hne, getProp_ensureProp_ne _ _ _ _ hne]

/-- `trackPageView` never touches the `events` field of the analytics
document: page-view tracking performs no event pruning at all. -/
theorem getProp_events_trackPageView (page : String) (referer : Option String)
    (today nowISO : String) (a : JsVal) :
    getProp (trackPageView page referer today nowISO a) "events" = getProp a "events" := by
  have hne : ("referrers" : String) ≠ "events" := by decide
  unfold trackPageView trackReferrer
  cases referer with
  | none =>
    rw [getProp_ensureProp_ne _ _ _ _ hne, getProp_events_bumpPageView]
  | some ref =>
    rw [getProp_applyReferrer_ne _ _ _ _ _ hne, getProp_ensureProp_ne _ _ _ _ hne,
        getProp_events_bumpPageView]

/-- Property writes never change the indexed elements of an array root. -/
theorem rootElems_setProp (a : JsVal) (k : String) (v : JsVal) :
    rootElems (setProp a k v) = rootElems a := by
  cases a <;> rfl

/-- Nested property writes preserve the root's array elements. -/
theorem rootElems_setProp2 (a : JsVal) (k1 k2 : String) (v : JsVal) :
    rootElems (setProp2 a k1 k2 v) = rootElems a := by
  unfold setProp2
  cases hg : getProp a k1 with
  | none => rfl
  | some o => exact rootElems_setProp _ _ _

/-- Doubly nested property writes preserve the root's array elements. -/
theorem rootElems_setProp3 (a : JsVal) (k1 k2 k3 : String) (v : JsVal) :
    rootElems (setProp3 a k1 k2 k3 v) = rootElems a := by
  unfold setProp3
  cases hg : getProp a k1 with
  | none => rfl
  | some o => exact rootElems_setProp _ _ _

/-- The counter increment preserves the root's array elements. -/
theorem rootElems_incProp3 (a : JsVal) (k1 k2 k3 : String) :
    rootElems (incProp3 a k1 k2 k3) = rootElems a := by
  unfold incProp3
  cases hg : getProp3 a k1 k2 k3 with
  | none => rfl
  | some o => cases o <;> first | rfl | exact rootElems_setProp3 _ _ _ _ _

/-- `unshift` on a property preserves the root's array elements. -/
theorem rootElems_unshiftProp (a : JsVal) (k : String) (e : JsVal) :
    rootElems (unshiftProp a k e) = rootElems a := by
  unfold unshiftProp
  cases hg : getProp a k with
  | none => rfl
  | some o => cases o <;> first | rfl | exact rootElems_setProp _ _ _

/-- `slice` reassignment preserves the root's array elements. -/
theorem rootElems_sliceProp (a : JsVal) (k : String) (n : Nat) :
    rootElems (sliceProp a k n) = rootElems a := by
  unfold sliceProp
  cases hg : getProp a k with
  | none => rfl
  | some o => cases o <;> first | rfl | exact rootElems_setProp _ _ _

/-- Guarded initialisation preserves the root's array elements. -/
theorem rootElems_ensureProp (a : JsVal) (k : String) (v : JsVal) :
    rootElems (ensureProp a k v) = rootElems a := by
  unfold ensureProp
  split
  · rfl
  · exact rootElems_setProp _ _ _

/-- Guarded nested initialisation preserves the root's array elements. -/
theorem rootElems_ensureProp2 (a : JsVal) (k1 k2 : String) (v : JsVal) :
    rootElems (ensureProp2 a k1 k2 v) = rootElems a := by
  unfold ensureProp2
  split
  · rfl
  · exact rootElems_setProp2 _ _ _ _

/-- Guarded doubly nested initialisation preserves the root's array elements. -/
theorem rootElems_ensureProp3 (a : JsVal) (k1 k2 k3 : String) (v : JsVal) :
    rootElems (ensureProp3 a k1 k2 k3 v) = rootElems a := by
  unfold ensureProp3
  split
  · rfl
  · exact rootElems_setProp3 _ _ _ _ _

/-- The referrer update preserves the root's array elements. -/
theorem rootElems_applyReferrer (page ref nowISO : String) (a : JsVal) :
    rootElems (applyReferrer page ref nowISO a) = rootElems a := by
  unfold applyReferrer
  split
  · rw [rootElems_sliceProp, rootElems_unshiftProp]
  · rfl

/-- `trackPageView` only assigns named properties: when the analytics value
is an array (as parsed from a fresh `'[]'` file), its indexed elements — the
only part `JSON.stringify` serializes — are unchanged. -/
theorem rootElems_trackPageView (page : String) (referer : Option String)
    (today nowISO : String) (a : JsVal) :
    rootElems (trackPageView page referer today nowISO a) = rootElems a := by
  unfold trackPageView trackReferrer bumpPageView
  cases referer with
  | none =>
    rw [rootElems_ensureProp, rootElems_incProp3, rootElems_ensureProp3,
        rootElems_ensureProp2, rootElems_ensureProp]
  | some ref =>
    rw [rootElems_applyReferrer, rootElems_ensureProp, rootElems_incProp3,
        rootElems_ensureProp3, rootElems_ensureProp2, rootElems_ensureProp]

/-- Inversion: a value whose root elements are known is an array. -/
theorem rootElems_eq_some (x : JsVal) (es : List JsVal) (h : rootElems x = some es) :
    ∃ ps, x = JsVal.varr es ps := by
  cases x <;> simp [rootElems] at h
  case varr es2 ps => exact ⟨ps, by rw [h]⟩

/-- One tracked page view starting from the persisted empty-array analytics
file persists the empty array again: the referrer and page-view data live
only in array properties, which serialization discards. -/
theorem pvCycle_empty (page : String) (referer : Option String) (today nowISO : String) :
    pvCycle (FileContent.valid (JsVal.varr [] [])) page referer today nowISO =
      FileContent.valid (JsVal.varr [] []) := by
  have h : rootElems (trackPageView page referer today nowISO (JsVal.varr [] [])) = some [] := by
    rw [rootElems_trackPageView]
    rfl
  obtain ⟨ps, hps⟩ := rootElems_eq_some _ _ h
  unfold pvCycle
  rw [show readData (FileContent.valid (JsVal.varr [] [])) = JsVal.varr [] [] from rfl, hps]
  simp [persistVal, persistValList]

/-- Any sequence of tracked page views leaves the persisted empty-array
analytics file equal to the empty array. -/
theorem foldViews_empty (vs : List (String × Option String)) :
    foldViews vs (FileContent.valid (JsVal.varr [] [])) =
      FileContent.valid (JsVal.varr [] []) := by
  induction vs with
  | nil => rfl
  | cons v rest ih =>
    unfold foldViews
    simp only [List.foldl_cons]
    rw [pvCycle_empty]
    exact ih

/-- A prefix test implies membership of all pattern characters. -/
theorem isPrefixOfList_mem (p l : List Char) (h : isPrefixOfList p l = true) :
    ∀ c ∈ p, c ∈ l := by
  induction p generalizing l with
  | nil => simp
  | cons a as ih =>
    cases l with
    | nil => simp [isPrefixOfList] at h
    | cons b bs =>
      simp only [isPrefixOfList, Bool.and_eq_true, decide_eq_true_eq] at h
      obtain ⟨hab, hr⟩ := h
      intro c hc
      rcases List.mem_cons.mp hc with hc | hc
      · subst hc
        subst hab
        exact List.mem_cons_self _ _
      · exact List.mem_cons_of_mem _ (ih bs hr c hc)

/-- A substring occurrence implies membership of all pattern characters. -/
theorem containsSub_mem (p l : List Char) (h : containsSub p l = true) :
    ∀ c ∈ p, c ∈ l := by
  induction l with
  | nil =>
    simp only [containsSub, List.isEmpty_iff] at h
    subst h
    simp
  | cons b bs ih =>
    simp only [containsSub, Bool.or_eq_true] at h
    rcases h with h | h
    · exact isPrefixOfList_mem _ _ h
    · intro c hc
      exact List.mem_cons_of_mem _ (ih h c hc)

/-- Every demo referrer is a nonempty string. -/
theorem demoRef_ne_empty (i : Nat) : demoRef i ≠ "" := by
  unfold demoRef
  intro h
  have h2 := congrArg String.data h
  simp at h2

/-- No demo referrer contains the letter `n`. -/
theorem demoRef_no_n (i : Nat) : 'n' ∉ (demoRef i).toList := by
  intro hmem
  have h2 : 'n' ∈ "https://".toList ++ List.replicate (i + 1) 'a' ++ ".com".toList := hmem
  rcases List.mem_append.mp h2 with h3 | h3
  · rcases List.mem_append.mp h3 with h4 | h4
    · exact absurd h4 (by decide)
    · have h5 := List.eq_of_mem_replicate h4
      exact absurd h5 (by decide)
  · exact absurd h3 (by decide)

/-- No demo referrer contains `tsono.app` (the pattern has an `n`, the
referrer does not), so each one passes the external-referrer gate. -/
theorem jsIncludes_demoRef_false (i : Nat) : jsIncludes (demoRef i) "tsono.app" = false := by
  cases hc : containsSub "tsono.app".toList (demoRef i).toList
  · exact hc
  · exact absurd (containsSub_mem _ _ hc 'n' (by decide)) (demoRef_no_n i)

/-- The demo referrers are pairwise distinct (their lengths differ). -/
theorem demoRef_inj : Function.Injective demoRef := by
  intro i j h
  have h2 := congrArg String.data h
  have h3 := congrArg List.length h2
  simp only [demoRef, List.length_append, List.length_replicate] at h3
  omega

/-- C2.  From a fresh deployment (analytics file initialized by the startup
code), 150 page views carrying 150 pairwise distinct external referrers leave
the persisted analytics document equal to the empty JSON array: it has no
referrer list at all, because the document's root is an array and
serialization discards the array's named properties. -/
theorem fresh_analytics_referrers_never_persist :
    demoViews.length = 150
    ∧ (demoViews.map Prod.snd).Nodup
    ∧ demoViews.all (fun v => isExternalRef v.2) = true
    ∧ foldViews demoViews (initDataFile FileContent.missing) =
        FileContent.valid (JsVal.varr [] [])
    ∧ getProp (readData (foldViews demoViews (initDataFile FileContent.missing)))
        "referrers" = none := by
  have hfold : foldViews demoViews (initDataFile FileContent.missing) =
      FileContent.valid (JsVal.varr [] []) := by
    rw [show initDataFile FileContent.missing = FileContent.valid (JsVal.varr [] []) from rfl]
    exact foldViews_empty _
  refine ⟨?_, ?_, ?_, hfold, ?_⟩
  · simp [demoViews]
  · rw [show demoViews.map Prod.snd = (List.range 150).map (fun i => some (demoRef i)) by
      simp [demoViews]]
    exact List.Nodup.map (fun i j h => demoRef_inj (Option.some_injective _ h))
      (List.nodup_range 150)
  · rw [List.all_eq_true]
    intro v hv
    obtain ⟨i, -, rfl⟩ := List.mem_map.mp hv
    show isExternalRef (some (demoRef i)) = true
    simp [isExternalRef, demoRef_ne_empty i, jsIncludes_demoRef_false i]
  · rw [hfold]
    rfl

/-- C3 counterexample.  Page-view tracking is a mutate of the analytics
document, yet after it runs (today being 2026-10-11, whose 7-day cutoff key
is 2026-10-04) an event dated 2020-01-01 — older than the cutoff by the
code's own comparison — is still present in the persisted document. -/
theorem trackPageView_keeps_stale_event :
    getProp2 (persistVal (trackPageView "/index.html" (some "https://google.com")
        "2026-10-11" "2026-10-11T12:00:00.000Z" staleDoc)) "events" "2020-01-01"
      = some (JsVal.varr [staleEvent] [])
    ∧ jsStrLt "2020-01-01" "2026-10-04" = true :=
  ⟨rfl, rfl⟩

/-- After `ensureProp`/`ensureProp2` the events object exists and holds an
array for today. -/
theorem prep_events (ps : List (String × JsVal)) (today : String)
    (hev : lookupProp ps "events" = none
        ∨ ∃ eps, lookupProp ps "events" = some (JsVal.vobj eps)
            ∧ ∀ p ∈ eps, ∃ es pr, p.2 = JsVal.varr es pr) :
    ∃ ps2 eps2 es0 pr0,
      ensureProp2 (ensureProp (JsVal.vobj ps) "events" (JsVal.vobj []))
          "events" today (JsVal.varr [] []) = JsVal.vobj ps2
      ∧ lookupProp ps2 "events" = some (JsVal.vobj eps2)
      ∧ lookupProp eps2 today = some (JsVal.varr es0 pr0) := by
  rcases hev with hev | ⟨eps, hev, hwf⟩
  · have ha1 : ensureProp (JsVal.vobj ps) "events" (JsVal.vobj []) =
        JsVal.vobj (upsertProp ps "events" (JsVal.vobj [])) := by
      unfold ensureProp
      rw [show getProp (JsVal.vobj ps) "events" = lookupProp ps "events" from rfl, hev]
      rfl
    rw [ha1]
    have hget1 : lookupProp (upsertProp ps "events" (JsVal.vobj [])) "events" =
        some (JsVal.vobj []) := lookupProp_upsert_self _ _ _
    have ha2 : ensureProp2 (JsVal.vobj (upsertProp ps "events" (JsVal.vobj [])))
        "events" today (JsVal.varr [] []) =
        JsVal.vobj (upsertProp (upsertProp ps "events" (JsVal.vobj []))
          "events" (JsVal.vobj [(today, JsVal.varr [] [])])) := by
      unfold ensureProp2
      rw [show getProp2 (JsVal.vobj (upsertProp ps "events" (JsVal.vobj []))) "events" today
            = none by
          unfold getProp2
          rw [show getProp (JsVal.vobj (upsertProp ps "events" (JsVal.vobj []))) "events"
                = some (JsVal.vobj []) from hget1]
          rfl]
      unfold setProp2
      rw [show getProp (JsVal.vobj (upsertProp ps "events" (JsVal.vobj []))) "events"
            = some (JsVal.vobj []) from hget1]
      rfl
    rw [ha2]
    refine ⟨_, [(today, JsVal.varr [] [])], [], [], rfl, lookupProp_upsert_self _ _ _, ?_⟩
    simp [lookupProp]
  · have ha1 : ensureProp (JsVal.vobj ps) "events" (JsVal.vobj []) = JsVal.vobj ps := by
      unfold ensureProp
      rw [show getProp (JsVal.vobj ps) "events" = lookupProp ps "events" from rfl, hev]
      rfl
    rw [ha1]
    cases htd : lookupProp eps today with
    | none =>
      have ha2 : ensureProp2 (JsVal.vobj ps) "events" today (JsVal.varr [] []) =
          JsVal.vobj (upsertProp ps "events"
            (JsVal.vobj (upsertProp eps today (JsVal.varr [] [])))) := by
        unfold ensureProp2
        rw [show getProp2 (JsVal.vobj ps) "events" today = none by
            unfold getProp2
            rw [show getProp (JsVal.vobj ps) "events" = lookupProp ps "events" from rfl, hev]
            exact htd]
        unfold setProp2
        rw [show getProp (JsVal.vobj ps) "events" = lookupProp ps "events" from rfl, hev]
        rfl
      rw [ha2]
      exact ⟨_, upsertProp eps today (JsVal.varr [] []), [], [], rfl,
        lookupProp_upsert_self _ _ _, lookupProp_upsert_self _ _ _⟩
    | some v =>
      obtain ⟨es, pr, hv⟩ := hwf (today, v) (lookupProp_mem _ _ _ htd)
      subst hv
      have ha2 : ensureProp2 (JsVal.vobj ps) "events" today (JsVal.varr [] []) =
          JsVal.vobj ps := by
        unfold ensureProp2
        rw [show getProp2 (JsVal.vobj ps) "events" today = some (JsVal.varr es pr) by
            unfold getProp2
            rw [show getProp (JsVal.vobj ps) "events" = lookupProp ps "events" from rfl, hev]
            exact htd]
        rfl
      rw [ha2]
      exact ⟨ps, eps, es, pr, rfl, hev, htd⟩

/-- Pushing the new event appends it to the array for today. -/
theorem push_events (ps2 eps2 : List (String × JsVal)) (today : String)
    (es0 : List JsVal) (pr0 : List (String × JsVal)) (e : JsVal)
    (h2 : lookupProp ps2 "events" = some (JsVal.vobj eps2))
    (h3 : lookupProp eps2 today = some (JsVal.varr es0 pr0)) :
    pushProp2 (JsVal.vobj ps2) "events" today e =
      JsVal.vobj (upsertProp ps2 "events"
        (JsVal.vobj (upsertProp eps2 today (JsVal.varr (es0 ++ [e]) pr0)))) := by
  unfold pushProp2
  rw [show getProp2 (JsVal.vobj ps2) "events" today = some (JsVal.varr es0 pr0) by
      unfold getProp2
      rw [show getProp (JsVal.vobj ps2) "events" = lookupProp ps2 "events" from rfl, h2]
      exact h3]
  unfold setProp2
  rw [show getProp (JsVal.vobj ps2) "events" = lookupProp ps2 "events" from rfl, h2]
  rfl

/-- The pruning loop filters the events object by the cutoff. -/
theorem prune_events_eq (ps3 eps3 : List (String × JsVal)) (cutoff : String)
    (h : lookupProp ps3 "events" = some (JsVal.vobj eps3)) :
    pruneEvents (JsVal.vobj ps3) cutoff =
      JsVal.vobj (upsertProp ps3 "events"
        (JsVal.vobj (eps3.filter (fun p => !jsStrLt p.1 cutoff)))) := by
  unfold pruneEvents
  rw [show getProp (JsVal.vobj ps3) "events" = lookupProp ps3 "events" from rfl, h]
  rfl

/-- C3 amended.  Only the event-recording mutate prunes: on an analytics
document with object root (whose events field, when present, maps date keys
to arrays), after `recordEvent` every event key before the cutoff is absent,
the event just recorded for today is present, and page-view tracking leaves
the events field entirely unchanged. -/
theorem recordEvent_prunes_event_path (ps : List (String × JsVal))
    (evName : String) (evData : Option JsVal) (today cutoffKey nowISO k : String)
    (hev : lookupProp ps "events" = none
        ∨ ∃ eps, lookupProp ps "events" = some (JsVal.vobj eps)
            ∧ ∀ p ∈ eps, ∃ es pr, p.2 = JsVal.varr es pr)
    (hk : jsStrLt k cutoffKey = true)
    (htoday : jsStrLt today cutoffKey = false) :
    getProp2 (recordEvent evName evData today cutoffKey nowISO (JsVal.vobj ps))
        "events" k = none
    ∧ (∃ es pr,
        getProp2 (recordEvent evName evData today cutoffKey nowISO (JsVal.vobj ps))
            "events" today = some (JsVal.varr es pr)
        ∧ newEventObj evName evData nowISO ∈ es)
    ∧ (∀ (page : String) (referer : Option String) (t2 i2 : String) (b : JsVal),
        getProp (trackPageView page referer t2 i2 b) "events" = getProp b "events") := by
  obtain ⟨ps2, eps2, es0, pr0, hprep, h2, h3⟩ := prep_events ps today hev
  have hre : recordEvent evName evData today cutoffKey nowISO (JsVal.vobj ps) =
      JsVal.vobj (upsertProp (upsertProp ps2 "events"
          (JsVal.vobj (upsertProp eps2 today
            (JsVal.varr (es0 ++ [newEventObj evName evData nowISO]) pr0))))
        "events"
        (JsVal.vobj ((upsertProp eps2 today
            (JsVal.varr (es0 ++ [newEventObj evName evData nowISO]) pr0)).filter
          (fun p => !jsStrLt p.1 cutoffKey)))) := by
    unfold recordEvent
    rw [hprep, push_events ps2 eps2 today es0 pr0 _ h2 h3,
        prune_events_eq _ _ _ (lookupProp_upsert_self _ _ _)]
  refine ⟨?_, ⟨es0 ++ [newEventObj evName evData nowISO], pr0, ?_, ?_⟩, ?_⟩
  · rw [hre]
    unfold getProp2
    rw [show getProp (JsVal.vobj (upsertProp (upsertProp ps2 "events"
          (JsVal.vobj (upsertProp eps2 today
            (JsVal.varr (es0 ++ [newEventObj evName evData nowISO]) pr0))))
        "events"
        (JsVal.vobj ((upsertProp eps2 today
            (JsVal.varr (es0 ++ [newEventObj evName evData nowISO]) pr0)).filter
          (fun p => !jsStrLt p.1 cutoffKey))))) "events"
        = some (JsVal.vobj ((upsertProp eps2 today
            (JsVal.varr (es0 ++ [newEventObj evName evData nowISO]) pr0)).filter
          (fun p => !jsStrLt p.1 cutoffKey))) from lookupProp_upsert_self _ _ _]
    exact lookupProp_filter_lt_none _ _ _ hk
  · rw [hre]
    unfold getProp2
    rw [show getProp (JsVal.vobj (upsertProp (upsertProp ps2 "events"
          (JsVal.vobj (upsertProp eps2 today
            (JsVal.varr (es0 ++ [newEventObj evName evData nowISO]) pr0))))
        "events"
        (JsVal.vobj ((upsertProp eps2 today
            (JsVal.varr (es0 ++ [newEventObj evName evData nowISO]) pr0)).filter
          (fun p => !jsStrLt p.1 cutoffKey))))) "events"
        = some (JsVal.vobj ((upsertProp eps2 today
            (JsVal.varr (es0 ++ [newEventObj evName evData nowISO]) pr0)).filter
          (fun p => !jsStrLt p.1 cutoffKey))) from lookupProp_upsert_self _ _ _]
    show lookupProp _ today = _
    rw [lookupProp_filter_keep _ _ _ htoday]
    exact lookupProp_upsert_self _ _ _
  · exact List.mem_append.mpr (Or.inr (List.mem_singleton.mpr rfl))
  · intro page referer t2 i2 b
    exact getProp_events_trackPageView page referer t2 i2 b

/-- Witness for the amended C3: recording a click on a document that still
holds the 2020-01-01 event, with today 2026-10-11 and cutoff 2026-10-04,
drops the stale key and keeps today's event. -/
theorem recordEvent_prunes_event_path_witness :
    getProp2 (recordEvent "click" none "2026-10-11" "2026-10-04"
        "2026-10-11T12:00:00.000Z"
        (JsVal.vobj [("events", JsVal.vobj [("2020-01-01", JsVal.varr [staleEvent] [])])]))
        "events" "2020-01-01" = none
    ∧ (∃ es pr,
        getProp2 (recordEvent "click" none "2026-10-11" "2026-10-04"
            "2026-10-11T12:00:00.000Z"
            (JsVal.vobj [("events", JsVal.vobj [("2020-01-01", JsVal.varr [staleEvent] [])])]))
            "events" "2026-10-11" = some (JsVal.varr es pr)
        ∧ newEventObj "click" none "2026-10-11T12:00:00.000Z" ∈ es)
    ∧ (∀ (page : String) (referer : Option String) (t2 i2 : String) (b : JsVal),
        getProp (trackPageView page referer t2 i2 b) "events" = getProp b "events") :=
  recordEvent_prunes_event_path
    [("events", JsVal.vobj [("2020-01-01", JsVal.varr [staleEvent] [])])]
    "click" none "2026-10-11" "2026-10-04" "2026-10-11T12:00:00.000Z" "2020-01-01"
    (Or.inr ⟨[("2020-01-01", JsVal.varr [staleEvent] [])], rfl, by
      intro p hp
      rw [List.mem_singleton] at hp
      subst hp
      exact ⟨[staleEvent], [], rfl⟩⟩)
    rfl rfl

end Tsono
